import Mathlib

/-!
Verification of the cache abstraction layer of `server/lib/cache/index.js`.

The development shallowly embeds the JavaScript source: JS values become the
inductive `JSVal`, promises/async functions become pure functions returning
`Except String _` where rejection is possible, module-level mutable state
becomes explicit state passing, and the sequence of cache/collaborator calls
a function performs is recorded as an explicit event trace.
-/

namespace Oc

/-- JavaScript values, as far as the cache layer manipulates them: `undefined`,
`null`, booleans, (integer) numbers, strings and arrays. -/
inductive JSVal where
  | undef : JSVal
  | null : JSVal
  | bool : Bool → JSVal
  | num : Int → JSVal
  | str : String → JSVal
  | arr : List JSVal → JSVal
deriving Repr

mutual

/-- Structural equality test for `JSVal`. -/
def JSVal.beq : JSVal → JSVal → Bool
  | .undef, .undef => true
  | .null, .null => true
  | .bool a, .bool b => a == b
  | .num a, .num b => a == b
  | .str a, .str b => a == b
  | .arr a, .arr b => JSVal.beqList a b
  | _, _ => false

/-- Structural equality test for lists of `JSVal`. -/
def JSVal.beqList : List JSVal → List JSVal → Bool
  | [], [] => true
  | a :: as, b :: bs => JSVal.beq a b && JSVal.beqList as bs
  | _, _ => false

end

mutual

theorem JSVal.beq_iff : ∀ a b : JSVal, JSVal.beq a b = true ↔ a = b
  | .undef, .undef => by simp [JSVal.beq]
  | .null, .null => by simp [JSVal.beq]
  | .bool a, .bool b => by simp [JSVal.beq]
  | .num a, .num b => by simp [JSVal.beq]
  | .str a, .str b => by simp [JSVal.beq]
  | .arr a, .arr b => by
      simp only [JSVal.beq]
      rw [JSVal.beqList_iff a b]
      constructor
      · intro h; rw [h]
      · intro h; cases h; rfl
  | .undef, .null | .undef, .bool _ | .undef, .num _ | .undef, .str _ | .undef, .arr _
  | .null, .undef | .null, .bool _ | .null, .num _ | .null, .str _ | .null, .arr _
  | .bool _, .undef | .bool _, .null | .bool _, .num _ | .bool _, .str _ | .bool _, .arr _
  | .num _, .undef | .num _, .null | .num _, .bool _ | .num _, .str _ | .num _, .arr _
  | .str _, .undef | .str _, .null | .str _, .bool _ | .str _, .num _ | .str _, .arr _
  | .arr _, .undef | .arr _, .null | .arr _, .bool _ | .arr _, .num _ | .arr _, .str _ => by
      simp [JSVal.beq]

theorem JSVal.beqList_iff : ∀ a b : List JSVal, JSVal.beqList a b = true ↔ a = b
  | [], [] => by simp [JSVal.beqList]
  | a :: as, b :: bs => by
      simp only [JSVal.beqList, Bool.and_eq_true]
      rw [JSVal.beq_iff a b, JSVal.beqList_iff as bs]
      constructor
      · rintro ⟨h1, h2⟩; rw [h1, h2]
      · intro h; cases h; exact ⟨rfl, rfl⟩
  | [], _ :: _ => by simp [JSVal.beqList]
  | _ :: _, [] => by simp [JSVal.beqList]

end

instance : DecidableEq JSVal := fun a b =>
  decidable_of_iff (JSVal.beq a b = true) (JSVal.beq_iff a b)

/-- JavaScript truthiness, as used by `if (...)` tests in the source
(`if (keys)`, the config checks in `getDefaultProviderType`). -/
def JSVal.truthy : JSVal → Bool
  | .undef => false
  | .null => false
  | .bool b => b
  | .num n => n != 0
  | .str s => s != ""
  | .arr _ => true

mutual

/-- `JSON.stringify` on the `JSVal` fragment (JS builtin used by `memoize`'s
`cacheKey`). Inside arrays, `undefined` serializes as `null`. -/
def JSVal.jsonEncode : JSVal → String
  | .undef => "null"
  | .null => "null"
  | .bool true => "true"
  | .bool false => "false"
  | .num n => toString n
  | .str s => "\"" ++ s ++ "\""
  | .arr xs => "[" ++ JSVal.jsonEncodeList xs ++ "]"

/-- Comma-separated `JSON.stringify` encoding of an array's elements. -/
def JSVal.jsonEncodeList : List JSVal → String
  | [] => ""
  | [x] => JSVal.jsonEncode x
  | x :: y :: xs => JSVal.jsonEncode x ++ "," ++ JSVal.jsonEncodeList (y :: xs)

end

/-! ## Provider selection (`PROVIDER_TYPES`, `getProvider`, `getDefaultProviderType`) -/

/-- `PROVIDER_TYPES.MEMCACHE` from the source. -/
def PROVIDER_TYPES.MEMCACHE : String := "MEMCACHE"

/-- `PROVIDER_TYPES.MEMORY` from the source. -/
def PROVIDER_TYPES.MEMORY : String := "MEMORY"

/-- `PROVIDER_TYPES.REDIS` from the source. -/
def PROVIDER_TYPES.REDIS : String := "REDIS"

/-- Modelled from the spec: the concrete provider factories
(`makeMemcacheProvider`, `makeRedisProvider`, `makeMemoryProvider` of
`server/lib/cache/{memcache,redis,memory}.js`) are not under `src/`; the spec
treats them as opaque backends constructed once, so each is an opaque
constructor here. `memory` records its fixed capacity argument. -/
inductive ProviderImpl where
  | memcache : ProviderImpl
  | redis : ProviderImpl
  | memory : Nat → ProviderImpl
deriving Repr, DecidableEq

/-- `getProvider` from the source: a `switch` on the provider type that
constructs the matching backend and rejects with
`Unsupported cache provider: <type>` on anything else. (The JS function is
`async`, so the `throw` surfaces as a rejected promise; `Except.error` models
that failure.) -/
def getProvider (providerType : String) : Except String ProviderImpl :=
  if providerType = PROVIDER_TYPES.MEMCACHE then .ok .memcache
  else if providerType = PROVIDER_TYPES.REDIS then .ok .redis
  else if providerType = PROVIDER_TYPES.MEMORY then .ok (.memory 1000)
  else .error ("Unsupported cache provider: " ++ providerType)

/-- The configuration entries `getDefaultProviderType` reads via lodash `get`:
a missing path yields `undefined` (`JSVal.undef`). -/
structure Config where
  redisServerUrl : JSVal
  memcacheServers : JSVal
deriving Repr

/-- `getDefaultProviderType` from the source: `redis.serverUrl` truthy →
`REDIS`, else `memcache.servers` truthy → `MEMCACHE`, else `MEMORY`. -/
def getDefaultProviderType (cfg : Config) : String :=
  if cfg.redisServerUrl.truthy then PROVIDER_TYPES.REDIS
  else if cfg.memcacheServers.truthy then PROVIDER_TYPES.MEMCACHE
  else PROVIDER_TYPES.MEMORY

/-! ## The facade over an arbitrary provider instance

For the facade claims the provider is arbitrary: any implementation of the
five operations over some private state `σ`, each of which may reject
(`Except.error`). The pair result returns the provider state left behind. -/

/-- A resolved provider instance: the five capability operations over private
state `σ`. The JS providers return arbitrary values from every operation, so
each operation yields a `JSVal` on success. -/
structure ProviderInst (σ : Type) where
  get : String → σ → Except String JSVal × σ
  set : String → JSVal → Nat → σ → Except String JSVal × σ
  has : String → σ → Except String JSVal × σ
  delete : String → σ → Except String JSVal × σ
  clear : σ → Except String JSVal × σ

/-- The module-level state of `server/lib/cache/index.js`: the
`let defaultProvider` slot, the number of times `getProvider` has been invoked
to build it, the backing provider state and the `logger.warn` log. -/
structure CacheState (σ : Type) where
  defaultProvider : Option (ProviderInst σ)
  instCount : Nat
  store : σ
  log : List String

/-- `getDefaultProvider` from the source: memoizes the constructed provider in
the module-level `defaultProvider` slot. `mk` stands for the provider that
`getProvider(getDefaultProviderType())` resolves to for the process
configuration. -/
def getDefaultProvider {σ : Type} (mk : ProviderInst σ) (st : CacheState σ) :
    ProviderInst σ × CacheState σ :=
  match st.defaultProvider with
  | some p => (p, st)
  | none =>
      (mk, { st with defaultProvider := some mk, instCount := st.instCount + 1 })

/-- The five facade operations of the `cache` object, as data. -/
inductive FacadeOp where
  | get : String → FacadeOp
  | set : String → JSVal → Nat → FacadeOp
  | has : String → FacadeOp
  | delete : String → FacadeOp
  | clear : FacadeOp

/-- Dispatch one facade operation to the resolved provider (the
`provider.<op>(...)` call inside each facade method's `try` block). -/
def providerRun {σ : Type} (p : ProviderInst σ) : FacadeOp → σ → Except String JSVal × σ
  | .get key, s => p.get key s
  | .set key v exp, s => p.set key v exp s
  | .has key, s => p.has key s
  | .delete key, s => p.delete key s
  | .clear, s => p.clear s

/-- The `logger.warn` message each facade method's `catch` block produces, up
to the thrown error's message. -/
def warnLabel : FacadeOp → String
  | .get _ => "Error while fetching from cache: "
  | .set _ _ _ => "Error while writing to cache: "
  | .has _ => "Error while checking from cache: "
  | .delete _ => "Error while deleting from cache: "
  | .clear => "Error while clearing cache: "

/-- One facade call from the `cache` object in the source: resolve the
(memoized) provider, run the delegated operation, and on a rejection log a
warning and fall through to `undefined` (the `catch` block returns nothing).
The result type carries no failure case: the facade never rejects. -/
def runFacade {σ : Type} (mk : ProviderInst σ) (op : FacadeOp) (st : CacheState σ) :
    JSVal × CacheState σ :=
  let pst := getDefaultProvider mk st
  match providerRun pst.1 op pst.2.store with
  | (.ok v, s2) => (v, { pst.2 with store := s2 })
  | (.error msg, s2) =>
      (.undef, { pst.2 with store := s2, log := pst.2.log ++ [warnLabel op ++ msg] })

/-- A sequence of facade calls, threading the module state. -/
def runFacadeList {σ : Type} (mk : ProviderInst σ) : List FacadeOp → CacheState σ → CacheState σ
  | [], st => st
  | op :: ops, st => runFacadeList mk ops (runFacade mk op st).2

/-! ## A concrete store for the memoize / purge claims

The memoization wrapper and the invalidation fanout call the facade, which in
turn calls whichever backend was resolved. The backends are not under `src/`,
so the store below is modelled from the spec's Provider contract (§4.1):
`get` returns the most recently stored value for a key (round-trip), `delete`
removes all entries for a key, a missing key reads as `undefined`. Expiry is
not modelled (no claim mentions the clock); the TTL passed to `set` is
recorded with the entry. Keys are `JSVal` because JS `Map` keys are compared
by SameValueZero, without string coercion. Over this store no provider
operation rejects, so each facade call reduces to the store operation itself
(the facade's `catch` branch is unreachable). -/

/-- Modelled from the spec: the physical storage of the Provider backends
(`memory.js` / `redis.js` / `memcache.js`, not under `src/`). A list of
(key, value, recorded TTL) entries, most recent first. -/
def Store : Type := List (JSVal × JSVal × Nat)

/-- Provider `get` per the spec contract: the most recently stored value for
the key, `undefined` when absent. -/
def storeGet : Store → JSVal → JSVal
  | [], _ => .undef
  | (k, v, _) :: rest, key => if k = key then v else storeGet rest key

/-- Provider `set` per the spec contract: record the value (and the TTL it was
stored with) for the key, shadowing any previous entry. -/
def storeSet (st : Store) (key : JSVal) (v : JSVal) (ttl : Nat) : Store :=
  (key, v, ttl) :: st

/-- Provider `delete` per the spec contract: remove every entry for the key;
deleting a missing key is a no-op. -/
def storeDelete : Store → JSVal → Store
  | [], _ => []
  | (k, v, t) :: rest, key =>
      if k = key then storeDelete rest key else (k, v, t) :: storeDelete rest key

/-! ## The memoization wrapper (`memoize`) -/

/-- Modelled from the spec: `md5` comes from `server/lib/utils`, which is not
under `src/`. The spec requires only a deterministic `stableHash`, so the hash
is a parameter `md5f` of the definitions below; every function, being a
function, is deterministic. -/
def HashFn : Type := String → String

/-- `cacheKey` from `memoize` in the source: the bare `key` for a call with no
arguments, otherwise `key` + `_` + hash of the JSON encoding of the argument
list. -/
def cacheKey (md5f : HashFn) (key : String) (args : List JSVal) : String :=
  if args.length != 0 then key ++ "_" ++ md5f (JSVal.jsonEncode (.arr args)) else key

/-- One observable step of a memoized function: the facade calls it makes and
the invocations of the wrapped function. -/
inductive MEvent where
  | cacheGet : String → MEvent
  | invoke : List JSVal → MEvent
  | cacheSet : String → JSVal → Nat → MEvent
  | cacheDelete : String → MEvent
deriving Repr, DecidableEq

/-- The wrapped function of `memoize(func, {key, maxAge})` from the source:
`await cache.get(cacheKey(arguments))`; if the value is strictly `undefined`,
invoke `func`, store its result under the same key with TTL `maxAge`, and
return it; otherwise return the cached value. A rejection of `func` (`Except
.error`) propagates; the trace records the cache calls and invocations made.
The `serialize`/`unserialize` options are pass-through transforms applied
inside the absent backends and are omitted (identity). -/
def memoizedCall (md5f : HashFn) (func : List JSVal → Except String JSVal)
    (key : String) (maxAge : Nat) (args : List JSVal) (st : Store) :
    Except String JSVal × Store × List MEvent :=
  let k := cacheKey md5f key args
  let value := storeGet st (.str k)
  if value = .undef then
    match func args with
    | .ok v => (.ok v, storeSet st (.str k) v maxAge, [.cacheGet k, .invoke args, .cacheSet k v maxAge])
    | .error e => (.error e, st, [.cacheGet k, .invoke args])
  else
    (.ok value, st, [.cacheGet k])

/-- `memoizedFunction.refresh` from the source: unconditionally invoke `func`
and store its result under the fingerprinted key; the JS function returns
`undefined`. A rejection of `func` propagates before anything is stored. -/
def memoizedRefresh (md5f : HashFn) (func : List JSVal → Except String JSVal)
    (key : String) (maxAge : Nat) (args : List JSVal) (st : Store) :
    Except String JSVal × Store × List MEvent :=
  let k := cacheKey md5f key args
  match func args with
  | .ok v => (.ok .undef, storeSet st (.str k) v maxAge, [.invoke args, .cacheSet k v maxAge])
  | .error e => (.error e, st, [.invoke args])

/-- `memoizedFunction.clear` from the source: delete the fingerprinted key. -/
def memoizedClear (md5f : HashFn) (key : String) (args : List JSVal) (st : Store) :
    Store × List MEvent :=
  let k := cacheKey md5f key args
  (storeDelete st (.str k), [.cacheDelete k])

/-! ## Invalidation fanout -/

/-- Delete each listed key in order (the `for (const key of keys)` loop of
`purgeGraphqlCacheForCollective`). -/
def deleteListedKeys : Store → List JSVal → Store
  | st, [] => st
  | st, k :: rest => deleteListedKeys (storeDelete st k) rest

/-- `purgeGraphqlCacheForCollective(slug)` from the source: read the value
stored under `graphqlCacheKeys_<slug>`; when it is truthy, delete that set key
and then each listed key, in that order. The second component is the ordered
list of keys passed to `cache.delete`. The invalidation set is stored as a
JSON array of keys (spec §3); a truthy non-array value (whose `for...of` in JS
would either throw or iterate characters) is outside the modelled contract and
maps to a rejection. -/
def purgeGraphqlCacheForCollective (slug : String) (st : Store) :
    Except String (Store × List JSVal) :=
  let setKey : JSVal := .str ("graphqlCacheKeys_" ++ slug)
  let keys := storeGet st setKey
  if keys.truthy then
    match keys with
    | .arr xs => .ok (deleteListedKeys (storeDelete st setKey) xs, setKey :: xs)
    | _ => .error "keys is not iterable"
  else
    .ok (st, [])

/-- Whether the external collaborators of the fanout fail on this run. -/
structure FanoutEnv where
  cdnFails : Bool
  contributorsFails : Bool

/-- The externally observable steps of the fanout: the CDN purge request, the
GraphQL cache purge, and the contributors-cache invalidation. -/
inductive FEvent where
  | cdnPurge : String → FEvent
  | graphqlPurge : String → FEvent
  | contributorsInvalidate : Int → FEvent
deriving Repr, DecidableEq

/-- Modelled from the spec: `purgeCacheForPage` of `server/lib/cloudflare` is
not under `src/`; per spec §6 it exposes `purgePath(path) -> Promise<void>`
whose failure is asynchronous (a rejected promise), never a synchronous
throw. The event records that the purge was requested. -/
def purgeCacheForPage (env : FanoutEnv) (path : String) : Except String Unit × FEvent :=
  (if env.cdnFails then .error "CDN purge failed" else .ok (), .cdnPurge path)

/-- Modelled from the spec: `invalidateContributorsCache` of
`server/lib/contributors` is not under `src/`; per spec §6 it exposes
`invalidate(subjectId) -> Promise<void>`. The event records that the
invalidation was requested. -/
def invalidateContributorsCache (env : FanoutEnv) (id : Int) : Except String Unit × FEvent :=
  (if env.contributorsFails then .error "contributors invalidation failed" else .ok (),
   .contributorsInvalidate id)

/-- `purgeCacheForCollective(slug)` from the source: fire `purgeCacheForPage`
and `purgeGraphqlCacheForCollective` without awaiting either, so a rejection
of either promise is discarded and never interrupts the caller. -/
def purgeCacheForCollective (env : FanoutEnv) (slug : String) (st : Store) :
    Store × List FEvent :=
  let cdn := purgeCacheForPage env ("/" ++ slug)
  let st2 :=
    match purgeGraphqlCacheForCollective slug st with
    | .ok (stNext, _) => stNext
    | .error _ => st
  (st2, [cdn.2, .graphqlPurge slug])

/-- The account argument of `purgeAllCachesForAccount`: the two fields the
source reads. -/
structure Account where
  slug : String
  id : Int

/-- `purgeAllCachesForAccount(account)` from the source: run
`purgeCacheForCollective(account.slug)` (not awaited), then `await
invalidateContributorsCache(account.id)`; only the awaited step's rejection
propagates. -/
def purgeAllCachesForAccount (env : FanoutEnv) (account : Account) (st : Store) :
    Except String Unit × Store × List FEvent :=
  let stepOne := purgeCacheForCollective env account.slug st
  let contrib := invalidateContributorsCache env account.id
  (contrib.1, stepOne.1, stepOne.2 ++ [contrib.2])

/-! ## Helper lemmas -/

theorem runFacade_state_fields {σ : Type} (mk : ProviderInst σ) (op : FacadeOp)
    (st : CacheState σ) :
    (runFacade mk op st).2.defaultProvider = (getDefaultProvider mk st).2.defaultProvider ∧
    (runFacade mk op st).2.instCount = (getDefaultProvider mk st).2.instCount := by
  rcases hpr : providerRun (getDefaultProvider mk st).1 op (getDefaultProvider mk st).2.store
    with ⟨v | msg, s2⟩ <;> simp [runFacade, hpr]

theorem getDefaultProvider_resolved {σ : Type} (mk p : ProviderInst σ) (st : CacheState σ)
    (h : st.defaultProvider = some p) : getDefaultProvider mk st = (p, st) := by
  unfold getDefaultProvider
  rw [h]

theorem getDefaultProvider_unresolved {σ : Type} (mk : ProviderInst σ) (st : CacheState σ)
    (h : st.defaultProvider = none) :
    getDefaultProvider mk st =
      (mk, { st with defaultProvider := some mk, instCount := st.instCount + 1 }) := by
  unfold getDefaultProvider
  rw [h]

theorem runFacadeList_resolved {σ : Type} (mk p : ProviderInst σ) (ops : List FacadeOp)
    (st : CacheState σ) (h : st.defaultProvider = some p) :
    (runFacadeList mk ops st).defaultProvider = some p ∧
    (runFacadeList mk ops st).instCount = st.instCount := by
  induction ops generalizing st with
  | nil => exact ⟨h, rfl⟩
  | cons op ops ih =>
      have hf := runFacade_state_fields mk op st
      rw [getDefaultProvider_resolved mk p st h] at hf
      have hstep := ih (runFacade mk op st).2 (hf.1.trans h)
      exact ⟨hstep.1, hstep.2.trans hf.2⟩

/-- Claim C6: the default provider type follows the strict configuration
precedence: a truthy `redis.serverUrl` selects REDIS; otherwise a truthy
`memcache.servers` selects MEMCACHE; otherwise MEMORY ("present" in the claim
is the JS truthiness test the source performs on the configuration entry). -/
theorem default_provider_type_precedence (cfg : Config) :
    (cfg.redisServerUrl.truthy = true →
      getDefaultProviderType cfg = PROVIDER_TYPES.REDIS) ∧
    (cfg.redisServerUrl.truthy = false → cfg.memcacheServers.truthy = true →
      getDefaultProviderType cfg = PROVIDER_TYPES.MEMCACHE) ∧
    (cfg.redisServerUrl.truthy = false → cfg.memcacheServers.truthy = false →
      getDefaultProviderType cfg = PROVIDER_TYPES.MEMORY) := by
  refine ⟨?_, ?_, ?_⟩
  · intro h; simp [getDefaultProviderType, h]
  · intro h1 h2; simp [getDefaultProviderType, h1, h2]
  · intro h1 h2; simp [getDefaultProviderType, h1, h2]

theorem default_provider_type_precedence_witness :
    getDefaultProviderType { redisServerUrl := .str "redis://h", memcacheServers := .undef } =
      PROVIDER_TYPES.REDIS :=
  (default_provider_type_precedence _).1 (by decide)

/-- Claim C9: for every provider type outside the supported three, provider
resolution `getProvider` fails with the unsupported-provider error during
resolution itself — the error is returned as the resolution's outcome, not
recovered or degraded to a logged warning. -/
theorem getProvider_unsupported (t : String)
    (h1 : t ≠ PROVIDER_TYPES.MEMCACHE) (h2 : t ≠ PROVIDER_TYPES.REDIS)
    (h3 : t ≠ PROVIDER_TYPES.MEMORY) :
    getProvider t = .error ("Unsupported cache provider: " ++ t) := by
  simp [getProvider, h1, h2, h3]

theorem getProvider_unsupported_witness :
    getProvider "FOO" = .error "Unsupported cache provider: FOO" :=
  getProvider_unsupported "FOO" (by decide) (by decide) (by decide)

/-- Claim C1: for every provider behaviour, every facade operation (get, set,
has, delete, clear) and every key, when the delegated provider operation
rejects, the facade call resolves (its result type has no failure case): it
appends the operation's warning to the log and yields `undefined` — for the
read-like operations that is the resolved value, for the write-like ones the
call simply completes (a JS function that returns nothing returns
`undefined`). -/
theorem facade_error_isolation {σ : Type} (mk : ProviderInst σ) (op : FacadeOp)
    (st : CacheState σ) (msg : String) (s2 : σ)
    (h : providerRun (getDefaultProvider mk st).1 op (getDefaultProvider mk st).2.store =
          (.error msg, s2)) :
    runFacade mk op st =
      (.undef, { (getDefaultProvider mk st).2 with
                 store := s2,
                 log := (getDefaultProvider mk st).2.log ++ [warnLabel op ++ msg] }) := by
  simp only [runFacade]
  rw [h]

/-- A provider instance whose every operation rejects. -/
def failProv : ProviderInst Unit where
  get := fun _ s => (.error "boom", s)
  set := fun _ _ _ s => (.error "boom", s)
  has := fun _ s => (.error "boom", s)
  delete := fun _ s => (.error "boom", s)
  clear := fun s => (.error "boom", s)

/-- A module state with `failProv` already resolved. -/
def failState : CacheState Unit :=
  { defaultProvider := some failProv, instCount := 1, store := (), log := [] }

theorem facade_error_isolation_witness :
    runFacade failProv (.get "k") failState =
      (.undef, { failState with log := ["Error while fetching from cache: boom"] }) := by
  have h := facade_error_isolation failProv (.get "k") failState "boom" () rfl
  rw [h]
  rfl

/-- Claim C7: the resolved default provider is a process-wide singleton. Once
the module slot holds a provider `p`, `getDefaultProvider` returns exactly
`p` without touching the state, a facade call behaves the same whatever
provider the factory would now produce (`mk` vs `mk2`: never recomputed or
switched), and any sequence of facade calls keeps the slot at `p` and never
instantiates again; from an unresolved state the first resolution fills the
slot, and any sequence of facade calls instantiates at most once. -/
theorem provider_singleton {σ : Type} (mk mk2 p : ProviderInst σ) (op : FacadeOp)
    (ops : List FacadeOp) (st : CacheState σ) :
    (st.defaultProvider = some p →
        getDefaultProvider mk st = (p, st) ∧
        runFacade mk op st = runFacade mk2 op st ∧
        (runFacadeList mk ops st).defaultProvider = some p ∧
        (runFacadeList mk ops st).instCount = st.instCount) ∧
    (st.defaultProvider = none →
        getDefaultProvider mk st =
          (mk, { st with defaultProvider := some mk, instCount := st.instCount + 1 }) ∧
        (runFacadeList mk ops st).instCount ≤ st.instCount + 1) := by
  constructor
  · intro h
    refine ⟨getDefaultProvider_resolved mk p st h, ?_, runFacadeList_resolved mk p ops st h⟩
    unfold runFacade
    rw [getDefaultProvider_resolved mk p st h, getDefaultProvider_resolved mk2 p st h]
  · intro h
    refine ⟨getDefaultProvider_unresolved mk st h, ?_⟩
    cases ops with
    | nil => simp [runFacadeList]
    | cons op2 ops2 =>
        have hf := runFacade_state_fields mk op2 st
        rw [getDefaultProvider_unresolved mk st h] at hf
        have hrest := runFacadeList_resolved mk mk ops2 (runFacade mk op2 st).2 hf.1
        simp only [runFacadeList]
        rw [hrest.2, hf.2]

/-- A provider instance whose every operation succeeds with `undefined`. -/
def okProv : ProviderInst Unit where
  get := fun _ s => (.ok .undef, s)
  set := fun _ _ _ s => (.ok .undef, s)
  has := fun _ s => (.ok .undef, s)
  delete := fun _ s => (.ok .undef, s)
  clear := fun s => (.ok .undef, s)

/-- A module state with `okProv` already resolved. -/
def okState : CacheState Unit :=
  { defaultProvider := some okProv, instCount := 1, store := (), log := [] }

theorem provider_singleton_witness :
    getDefaultProvider okProv okState = (okProv, okState) ∧
    (runFacadeList okProv [.get "a", .clear] okState).instCount = okState.instCount := by
  have h := (provider_singleton okProv okProv okProv (.get "a") [.get "a", .clear] okState).1 rfl
  exact ⟨h.1, h.2.2.2⟩

/-! ## Memoization wrapper claims -/

theorem storeGet_storeSet_self (st : Store) (k v : JSVal) (t : Nat) :
    storeGet (storeSet st k v t) k = v := by
  simp [storeGet, storeSet]

theorem memoizedCall_hit_eq (md5f : HashFn) (func : List JSVal → Except String JSVal)
    (key : String) (maxAge : Nat) (args : List JSVal) (st : Store) (v : JSVal)
    (hv : storeGet st (.str (cacheKey md5f key args)) = v) (hne : v ≠ .undef) :
    memoizedCall md5f func key maxAge args st =
      (.ok v, st, [.cacheGet (cacheKey md5f key args)]) := by
  simp only [memoizedCall]
  rw [hv, if_neg hne]

theorem memoizedCall_miss_eq (md5f : HashFn) (func : List JSVal → Except String JSVal)
    (key : String) (maxAge : Nat) (args : List JSVal) (st : Store) (v : JSVal)
    (hmiss : storeGet st (.str (cacheKey md5f key args)) = .undef)
    (hok : func args = .ok v) :
    memoizedCall md5f func key maxAge args st =
      (.ok v, storeSet st (.str (cacheKey md5f key args)) v maxAge,
       [.cacheGet (cacheKey md5f key args), .invoke args,
        .cacheSet (cacheKey md5f key args) v maxAge]) := by
  simp only [memoizedCall]
  rw [hmiss, if_pos rfl, hok]

theorem memoizedCall_err_eq (md5f : HashFn) (func : List JSVal → Except String JSVal)
    (key : String) (maxAge : Nat) (args : List JSVal) (st : Store) (e : String)
    (hmiss : storeGet st (.str (cacheKey md5f key args)) = .undef)
    (herr : func args = .error e) :
    memoizedCall md5f func key maxAge args st =
      (.error e, st, [.cacheGet (cacheKey md5f key args), .invoke args]) := by
  simp only [memoizedCall]
  rw [hmiss, if_pos rfl, herr]

/-- Claim C3: a memoized call whose cache lookup for the fingerprinted key
yields a non-`undefined` value returns that value without invoking the
wrapped function (its trace holds the single cache read and no `invoke`
event); a call whose lookup yields `undefined` invokes the wrapped function
with the same arguments, stores its result under the fingerprinted key with
TTL `maxAge`, and returns the freshly computed result. -/
theorem memoize_hit_miss (md5f : HashFn) (func : List JSVal → Except String JSVal)
    (key : String) (maxAge : Nat) (args : List JSVal) (st : Store) :
    (∀ v : JSVal, storeGet st (.str (cacheKey md5f key args)) = v → v ≠ .undef →
        memoizedCall md5f func key maxAge args st =
          (.ok v, st, [.cacheGet (cacheKey md5f key args)])) ∧
    (∀ v : JSVal, storeGet st (.str (cacheKey md5f key args)) = .undef → func args = .ok v →
        memoizedCall md5f func key maxAge args st =
          (.ok v, storeSet st (.str (cacheKey md5f key args)) v maxAge,
           [.cacheGet (cacheKey md5f key args), .invoke args,
            .cacheSet (cacheKey md5f key args) v maxAge])) :=
  ⟨fun v hv hne => memoizedCall_hit_eq md5f func key maxAge args st v hv hne,
   fun v hmiss hok => memoizedCall_miss_eq md5f func key maxAge args st v hmiss hok⟩

theorem memoize_hit_miss_witness :
    memoizedCall (fun s => s) (fun _ => .ok (.num 7)) "k" 5 [] [(.str "k", .num 3, 0)] =
      (.ok (.num 3), [(.str "k", .num 3, 0)], [.cacheGet "k"]) ∧
    memoizedCall (fun s => s) (fun _ => .ok (.num 7)) "k" 5 [] [] =
      (.ok (.num 7), [(.str "k", .num 7, 5)],
       [.cacheGet "k", .invoke [], .cacheSet "k" (.num 7) 5]) := by
  constructor
  · exact (memoize_hit_miss (fun s => s) (fun _ => .ok (.num 7)) "k" 5 [] _).1
      (.num 3) rfl (by decide)
  · exact (memoize_hit_miss (fun s => s) (fun _ => .ok (.num 7)) "k" 5 [] _).2
      (.num 7) rfl rfl

/-- Claim C5: when the wrapped function rejects on a cache miss (or inside
`refresh`), the memoized call (resp. `refresh`) rejects with that same error
and leaves the store unchanged — nothing is cached for that invocation. -/
theorem memoize_upstream_error (md5f : HashFn) (func : List JSVal → Except String JSVal)
    (key : String) (maxAge : Nat) (args : List JSVal) (st : Store) (e : String)
    (herr : func args = .error e) :
    (storeGet st (.str (cacheKey md5f key args)) = .undef →
        memoizedCall md5f func key maxAge args st =
          (.error e, st, [.cacheGet (cacheKey md5f key args), .invoke args])) ∧
    memoizedRefresh md5f func key maxAge args st = (.error e, st, [.invoke args]) := by
  constructor
  · intro hmiss
    exact memoizedCall_err_eq md5f func key maxAge args st e hmiss herr
  · simp only [memoizedRefresh]
    rw [herr]

theorem memoize_upstream_error_witness :
    memoizedCall (fun s => s) (fun _ => .error "db down") "k" 5 [] [] =
      (.error "db down", [], [.cacheGet "k", .invoke []]) ∧
    memoizedRefresh (fun s => s) (fun _ => .error "db down") "k" 5 [] [] =
      (.error "db down", [], [.invoke []]) := by
  constructor
  · exact (memoize_upstream_error (fun s => s) (fun _ => .error "db down") "k" 5 [] [] "db down"
      rfl).1 rfl
  · exact (memoize_upstream_error (fun s => s) (fun _ => .error "db down") "k" 5 [] [] "db down"
      rfl).2

/-- Claim C10: when the wrapped function returns `undefined` on a miss, the
stored entry reads back as `undefined` — indistinguishable from a cache miss
— so the next call with the same arguments re-invokes the wrapped function
(its trace holds an `invoke` event) and returns that second invocation's
result: an `undefined` result is never effectively cached. -/
theorem memoize_undefined_not_cached (md5f : HashFn)
    (func : List JSVal → Except String JSVal) (key : String) (maxAge : Nat)
    (args : List JSVal) (st : Store)
    (hmiss : storeGet st (.str (cacheKey md5f key args)) = .undef)
    (hf : func args = .ok .undef) :
    (memoizedCall md5f func key maxAge args st).1 = .ok .undef ∧
    storeGet (memoizedCall md5f func key maxAge args st).2.1
      (.str (cacheKey md5f key args)) = .undef ∧
    (∀ (func2 : List JSVal → Except String JSVal) (w : JSVal), func2 args = .ok w →
        memoizedCall md5f func2 key maxAge args (memoizedCall md5f func key maxAge args st).2.1 =
          (.ok w,
           storeSet (memoizedCall md5f func key maxAge args st).2.1
             (.str (cacheKey md5f key args)) w maxAge,
           [.cacheGet (cacheKey md5f key args), .invoke args,
            .cacheSet (cacheKey md5f key args) w maxAge])) := by
  have h1 := memoizedCall_miss_eq md5f func key maxAge args st .undef hmiss hf
  have hread : storeGet (memoizedCall md5f func key maxAge args st).2.1
      (.str (cacheKey md5f key args)) = .undef := by
    rw [h1]
    exact storeGet_storeSet_self st (.str (cacheKey md5f key args)) .undef maxAge
  refine ⟨by rw [h1], hread, ?_⟩
  intro func2 w hw
  exact memoizedCall_miss_eq md5f func2 key maxAge args _ w hread hw

theorem memoize_undefined_not_cached_witness :
    (memoizedCall (fun s => s) (fun _ => .ok .undef) "k" 5 [] []).1 = .ok .undef ∧
    memoizedCall (fun s => s) (fun _ => .ok (.num 9)) "k" 5 []
        (memoizedCall (fun s => s) (fun _ => .ok .undef) "k" 5 [] []).2.1 =
      (.ok (.num 9),
       storeSet (memoizedCall (fun s => s) (fun _ => .ok .undef) "k" 5 [] []).2.1
         (.str "k") (.num 9) 5,
       [.cacheGet "k", .invoke [], .cacheSet "k" (.num 9) 5]) := by
  have h := memoize_undefined_not_cached (fun s => s) (fun _ => .ok .undef) "k" 5 [] [] rfl rfl
  exact ⟨h.1, h.2.2 (fun _ => .ok (.num 9)) (.num 9) rfl⟩

/-- The event addresses the cache at key `k` (invocations address no key). -/
def usesKey (k : String) : MEvent → Prop
  | .cacheGet k2 => k2 = k
  | .invoke _ => True
  | .cacheSet k2 _ _ => k2 = k
  | .cacheDelete k2 => k2 = k

theorem memoizedCall_trace_cases (md5f : HashFn) (func : List JSVal → Except String JSVal)
    (key : String) (maxAge : Nat) (args : List JSVal) (st : Store) :
    (memoizedCall md5f func key maxAge args st).2.2 = [.cacheGet (cacheKey md5f key args)] ∨
    (memoizedCall md5f func key maxAge args st).2.2 =
      [.cacheGet (cacheKey md5f key args), .invoke args] ∨
    ∃ v : JSVal, (memoizedCall md5f func key maxAge args st).2.2 =
      [.cacheGet (cacheKey md5f key args), .invoke args,
       .cacheSet (cacheKey md5f key args) v maxAge] := by
  by_cases hv : storeGet st (.str (cacheKey md5f key args)) = .undef
  · cases hfa : func args with
    | ok v =>
        right; right
        exact ⟨v, by rw [memoizedCall_miss_eq md5f func key maxAge args st v hv hfa]⟩
    | error e =>
        right; left
        rw [memoizedCall_err_eq md5f func key maxAge args st e hv hfa]
  · left
    rw [memoizedCall_hit_eq md5f func key maxAge args st _ rfl hv]

theorem memoizedRefresh_trace_cases (md5f : HashFn) (func : List JSVal → Except String JSVal)
    (key : String) (maxAge : Nat) (args : List JSVal) (st : Store) :
    (memoizedRefresh md5f func key maxAge args st).2.2 = [.invoke args] ∨
    ∃ v : JSVal, (memoizedRefresh md5f func key maxAge args st).2.2 =
      [.invoke args, .cacheSet (cacheKey md5f key args) v maxAge] := by
  cases hfa : func args with
  | ok v => exact .inr ⟨v, by simp only [memoizedRefresh]; rw [hfa]⟩
  | error e => exact .inl (by simp only [memoizedRefresh]; rw [hfa])

/-- Claim C4: the fingerprinting rule of `memoize`: a call with zero
arguments keys on `key` verbatim; a call with one or more arguments keys on
`key` + `_` + hash of the JSON encoding of the argument array; the rule is
deterministic (structural equality of argument lists is propositional
equality in the embedding, and the hash is a function); and every cache
access performed by the wrapped function, by `refresh` and by `clear`
addresses exactly that fingerprinted key. -/
theorem memoize_key_rule (md5f : HashFn) (func : List JSVal → Except String JSVal)
    (key : String) (maxAge : Nat) (args args2 : List JSVal) (st : Store) :
    cacheKey md5f key [] = key ∧
    (args ≠ [] →
      cacheKey md5f key args = key ++ "_" ++ md5f (JSVal.jsonEncode (.arr args))) ∧
    (args = args2 → cacheKey md5f key args = cacheKey md5f key args2) ∧
    (∀ e ∈ (memoizedCall md5f func key maxAge args st).2.2,
      usesKey (cacheKey md5f key args) e) ∧
    (∀ e ∈ (memoizedRefresh md5f func key maxAge args st).2.2,
      usesKey (cacheKey md5f key args) e) ∧
    (∀ e ∈ (memoizedClear md5f key args st).2, usesKey (cacheKey md5f key args) e) := by
  refine ⟨rfl, ?_, ?_, ?_, ?_, ?_⟩
  · intro h
    cases args with
    | nil => exact absurd rfl h
    | cons a as => simp [cacheKey]
  · intro h
    rw [h]
  · intro e he
    rcases memoizedCall_trace_cases md5f func key maxAge args st with h | h | ⟨v, h⟩ <;>
        rw [h] at he <;> simp only [List.mem_cons, List.not_mem_nil, or_false] at he
    · subst he; rfl
    · rcases he with he | he <;> subst he
      · rfl
      · trivial
    · rcases he with he | he | he <;> subst he
      · rfl
      · trivial
      · rfl
  · intro e he
    rcases memoizedRefresh_trace_cases md5f func key maxAge args st with h | ⟨v, h⟩ <;>
        rw [h] at he <;> simp only [List.mem_cons, List.not_mem_nil, or_false] at he
    · subst he; trivial
    · rcases he with he | he <;> subst he
      · trivial
      · rfl
  · intro e he
    simp only [memoizedClear, List.mem_cons, List.not_mem_nil, or_false] at he
    subst he
    rfl

theorem memoize_key_rule_witness :
    cacheKey (fun s => s) "k" [.num 1] = "k_[1]" := by
  have h := (memoize_key_rule (fun s => s) (fun _ => .ok .undef) "k" 0 [.num 1] [.num 1]
    []).2.1 (by decide)
  rw [h]
  rfl

/-! ## Invalidation fanout claims -/

theorem storeGet_storeDelete (st : Store) (j k : JSVal) :
    storeGet (storeDelete st j) k = if k = j then .undef else storeGet st k := by
  induction st with
  | nil => simp [storeDelete, storeGet]
  | cons hd tl ih =>
      rcases hd with ⟨hk, hv, ht⟩
      by_cases h1 : hk = j
      · rw [show storeDelete ((hk, hv, ht) :: tl) j = storeDelete tl j from by
          simp [storeDelete, h1]]
        rw [ih]
        by_cases h2 : k = j
        · simp [h2]
        · have h3 : hk ≠ k := fun hc => h2 (hc ▸ h1)
          simp [storeGet, h2, h3]
      · rw [show storeDelete ((hk, hv, ht) :: tl) j = (hk, hv, ht) :: storeDelete tl j from by
          simp [storeDelete, h1]]
        by_cases h2 : hk = k
        · have h3 : ¬k = j := fun hc => h1 (h2.trans hc)
          simp [storeGet, h2, h3]
        · simp [storeGet, h2, ih]

theorem storeGet_deleteListedKeys_absent (xs : List JSVal) (st : Store) (k : JSVal)
    (h : storeGet st k = .undef) : storeGet (deleteListedKeys st xs) k = .undef := by
  induction xs generalizing st with
  | nil => exact h
  | cons x xs ih =>
      simp only [deleteListedKeys]
      apply ih
      rw [storeGet_storeDelete]
      split
      · rfl
      · exact h

theorem storeGet_deleteListedKeys_mem (xs : List JSVal) (st : Store) (k : JSVal)
    (h : k ∈ xs) : storeGet (deleteListedKeys st xs) k = .undef := by
  induction xs generalizing st with
  | nil => cases h
  | cons x xs ih =>
      simp only [deleteListedKeys]
      rcases List.mem_cons.mp h with h1 | h1
      · subst h1
        apply storeGet_deleteListedKeys_absent
        rw [storeGet_storeDelete]
        simp
      · exact ih (storeDelete st x) h1

/-- The explicit store of the counterexample: the invalidation set for
`acme` holds the single key `a`, and an entry for `a` is present. -/
def purgeCexStore : Store :=
  [(.str "graphqlCacheKeys_acme", .arr [.str "a"], 0), (.str "a", .num 1, 0)]

/-- Claim C2 counterexample: on `purgeCexStore`, whose invalidation set for
`acme` is `["a"]`, the purge issues its `cache.delete` calls with the set key
first — the delete sequence is `[graphqlCacheKeys_acme, a]`, not the
members-before-set-key sequence `[a, graphqlCacheKeys_acme]` the claim
states. -/
theorem purge_graphql_counterexample :
    storeGet purgeCexStore (.str "graphqlCacheKeys_acme") = .arr [.str "a"] ∧
    purgeGraphqlCacheForCollective "acme" purgeCexStore =
      .ok ([], [.str "graphqlCacheKeys_acme", .str "a"]) ∧
    ([JSVal.str "graphqlCacheKeys_acme", JSVal.str "a"] : List JSVal) ≠
      [JSVal.str "a", JSVal.str "graphqlCacheKeys_acme"] :=
  ⟨rfl, rfl, by decide⟩

/-- Claim C2 (amended): `purgeGraphqlCacheForCollective(slug)` reads the
invalidation set stored under `graphqlCacheKeys_<slug>`; if the set is
present it deletes the set key itself first and then deletes every key listed
in the set; if the set is absent it completes without error and performs zero
deletes (the second component lists the keys passed to `cache.delete`, in
order). -/
theorem purge_graphql_amended (slug : String) (st : Store) :
    (storeGet st (.str ("graphqlCacheKeys_" ++ slug)) = .undef →
        purgeGraphqlCacheForCollective slug st = .ok (st, [])) ∧
    (∀ xs : List JSVal, storeGet st (.str ("graphqlCacheKeys_" ++ slug)) = .arr xs →
        purgeGraphqlCacheForCollective slug st =
          .ok (deleteListedKeys (storeDelete st (.str ("graphqlCacheKeys_" ++ slug))) xs,
               .str ("graphqlCacheKeys_" ++ slug) :: xs) ∧
        storeGet (deleteListedKeys (storeDelete st (.str ("graphqlCacheKeys_" ++ slug))) xs)
          (.str ("graphqlCacheKeys_" ++ slug)) = .undef ∧
        ∀ k ∈ xs,
          storeGet (deleteListedKeys (storeDelete st (.str ("graphqlCacheKeys_" ++ slug))) xs)
            k = .undef) := by
  constructor
  · intro h
    simp only [purgeGraphqlCacheForCollective]
    rw [h]
    rfl
  · intro xs h
    refine ⟨?_, ?_, ?_⟩
    · simp only [purgeGraphqlCacheForCollective]
      rw [h]
      rfl
    · apply storeGet_deleteListedKeys_absent
      rw [storeGet_storeDelete]
      simp
    · intro k hk
      exact storeGet_deleteListedKeys_mem xs _ k hk

theorem purge_graphql_amended_witness :
    purgeGraphqlCacheForCollective "acme" ([] : Store) = .ok ([], []) ∧
    purgeGraphqlCacheForCollective "acme" purgeCexStore =
      .ok ([], [.str "graphqlCacheKeys_acme", .str "a"]) ∧
    storeGet ([] : Store) (.str "a") = .undef := by
  refine ⟨(purge_graphql_amended "acme" []).1 rfl, ?_, ?_⟩
  · have h := ((purge_graphql_amended "acme" purgeCexStore).2 [.str "a"] rfl).1
    exact h.trans rfl
  · have h := ((purge_graphql_amended "acme" purgeCexStore).2 [.str "a"] rfl).2.2
      (.str "a") (by decide)
    exact h

/-- Claim C8: `purgeAllCachesForAccount(account)` always performs all three
purge steps — the CDN page purge of `/<slug>`, the GraphQL cache purge for
the slug, and the contributors-cache invalidation for the id — whatever
combination of the external collaborators fails: the event sequence is the
same for every failure environment, so a failure in one step never prevents
the others from being attempted. -/
theorem purge_all_attempts_all (env : FanoutEnv) (account : Account) (st : Store) :
    (purgeAllCachesForAccount env account st).2.2 =
      [.cdnPurge ("/" ++ account.slug), .graphqlPurge account.slug,
       .contributorsInvalidate account.id] := by
  rfl

end Oc
